import Mathlib

/-!
# A shallow embedding of the vedajs render-graph engine

This file models the core of `src/veda.ts` (the `Veda` class: pipeline
construction via `loadShader`/`createRenderPass`, the per-frame protocol in
`render`/`animate`, texture lifecycle in `loadTexture`/`unloadTexture`) and of
`src/video-loader.ts` (the memoizing `VideoLoader`), and proves properties of
the model.

Modelling conventions:
* THREE.js GPU objects (`WebGLRenderTarget`, `Texture`, video elements) are
  given explicit numeric identities allocated from a fresh-id counter, since
  the source relies on JavaScript object identity (sharing by reference).
* A texture store maps each texture id to its observable state: the tag of the
  last render that wrote into it (pass index, FRAMEINDEX value) and whether
  `dispose()` has been called on it.
* JavaScript numbers are modelled as `Int` (`Rat` for video playback rates).
  The source divides sizes by `pixelRatio` and milliseconds by 1000 with IEEE
  float division; the model uses integer division / keeps milliseconds, which
  none of the proved properties depend on.
* User-supplied `WIDTH`/`HEIGHT` size-expression strings are compiled by the
  source with `new Function`; the model carries the compiled function directly
  (`Option (Int → Int → Int)`, `none` covering an absent or unparsable
  expression, for which the source falls back to the identity).
* External collaborators whose sources are not in the repository (three.js
  rendering itself, gif/audio/camera/gamepad/key/midi loaders) are modelled
  only through the state the core mutates; their per-frame `update()` pulls do
  not touch any modelled state.
-/

namespace Vedajs

/-- A uniform value (`value` field of an entry of `this.uniforms`).  Only the
shapes the engine itself manipulates are distinguished; `tex` carries the
identity of a THREE texture object. -/
inductive UniformValue where
  | tex (id : Nat)
  | int (n : Int)
  | num (x : Int)
  | vec2 (x y : Int)
  | vec3 (x y z : Int)
  deriving DecidableEq, Repr

/-- One entry of the uniform table: `{ type, value }`. -/
structure Uniform where
  type : String
  value : UniformValue
  deriving DecidableEq, Repr

/-- `this.uniforms` is a JavaScript object used as a map from uniform name to
`Uniform`; modelled as an association list with unique keys. -/
def Uniforms := List (String × Uniform)

/-- Lookup in the uniform table (`this.uniforms[name]`). -/
def getU : Uniforms → String → Option Uniform
  | [], _ => none
  | (k, u) :: rest, n => if k = n then some u else getU rest n

/-- Update/insert in the uniform table (`this.uniforms[name] = u`). -/
def setU : Uniforms → String → Uniform → Uniforms
  | [], n, u => [(n, u)]
  | (k, v) :: rest, n, u =>
      if k = n then (n, u) :: rest else (k, v) :: setU rest n u

/-- The value stored under a uniform name, if any. -/
def getUVal (us : Uniforms) (n : String) : Option UniformValue :=
  (getU us n).map (·.value)

/-- `this.uniforms[k].value = val`: assign the value of an existing entry,
keeping its type tag.  On a missing entry the source throws; every name this
is used with is installed by the constructor or the pipeline build. -/
def setUVal (us : Uniforms) (k : String) (val : UniformValue) : Uniforms :=
  match getU us k with
  | some u => setU us k { u with value := val }
  | none => us

/-- Observable state of one THREE texture object: the (pass index, FRAMEINDEX)
tag of the last render call that wrote into it, and its disposal flag. -/
structure TexState where
  content : Option (Nat × Int)
  disposed : Bool
  deriving DecidableEq, Repr

/-- The texture store: texture id → `TexState` (association list, unique keys). -/
def TexStore := List (Nat × TexState)

def getTex : TexStore → Nat → Option TexState
  | [], _ => none
  | (k, t) :: rest, n => if k = n then some t else getTex rest n

def setTex : TexStore → Nat → TexState → TexStore
  | [], n, t => [(n, t)]
  | (k, t0) :: rest, n, t =>
      if k = n then (n, t) :: rest else (k, t0) :: setTex rest n t

/-- Update the state of texture id `n` (inserting a default entry if absent,
which the reachable states never need). -/
def updTex (s : TexStore) (n : Nat) (f : TexState → TexState) : TexStore :=
  setTex s n (f ((getTex s n).getD ⟨none, false⟩))

/-- JavaScript truthiness of an optional string: `undefined` and `""` are
falsy (`!pass.fs`, `!pass.vs`, `if (pass.TARGET)` in the source). -/
def falsyStr : Option String → Bool
  | none => true
  | some s => s = ""

/-- The truthy content of an optional string, if any. -/
def truthyStr : Option String → Option String
  | none => none
  | some s => if s = "" then none else some s

/-- `this.targets = [this.targets[1], this.targets[0]]` and
`target.targets = [target.targets[1], target.targets[0]]`: the ping-pong swap
of a double-buffered pair. -/
def swapPair {α : Type} (p : α × α) : α × α := (p.2, p.1)

/-! ## `src/video-loader.ts` -/

/-- One entry of `VideoLoader.cache` (`ICache`): the created `<video>` element
and `THREE.VideoTexture` are identified by fresh ids. -/
structure VideoCacheEntry where
  name : String
  videoId : Nat
  playbackRate : Rat
  textureId : Nat
  deriving DecidableEq, Repr

/-- `VideoLoader.cache` maps a url to an entry; `unload` stores `null`
(`some none` in the outer lookup) rather than deleting the key. -/
def VideoCache := List (String × Option VideoCacheEntry)

def getCache : VideoCache → String → Option (Option VideoCacheEntry)
  | [], _ => none
  | (k, e) :: rest, n => if k = n then some e else getCache rest n

def setCache : VideoCache → String → Option VideoCacheEntry → VideoCache
  | [], n, e => [(n, e)]
  | (k, e0) :: rest, n, e =>
      if k = n then (n, e) :: rest else (k, e0) :: setCache rest n e

/-- The `VideoLoader` class state.  `domVideos` is the list of `<video>`
elements currently appended to `document.body`; `nextId` allocates identities
for created video elements and textures. -/
structure VideoLoader where
  cache : VideoCache
  nextId : Nat
  domVideos : List Nat

/-- `VideoLoader.load(name, url, speed)`: returns the cached texture after
updating `playbackRate` when the url is cached, otherwise creates a video
element, appends it to the document, builds a `VideoTexture` for it and caches
the entry. -/
def VideoLoader.load (l : VideoLoader) (name url : String) (speed : Rat) :
    Nat × VideoLoader :=
  match getCache l.cache url with
  | some (some c) =>
      (c.textureId,
        { l with cache := setCache l.cache url (some { c with playbackRate := speed }) })
  | _ =>
      let videoId := l.nextId
      let textureId := l.nextId + 1
      (textureId,
        { l with
            nextId := l.nextId + 2
            domVideos := l.domVideos ++ [videoId]
            cache := setCache l.cache url (some ⟨name, videoId, speed, textureId⟩) })

/-- `VideoLoader.unload(url)`: removes the cached video element from the
document (when present) and nulls out the cache slot. -/
def VideoLoader.unload (l : VideoLoader) (url : String) : VideoLoader :=
  match getCache l.cache url with
  | some (some c) =>
      { l with
          domVideos := l.domVideos.erase c.videoId
          cache := setCache l.cache url none }
  | _ => { l with cache := setCache l.cache url none }

/-! ## `src/veda.ts` — data model -/

/-- A `THREE.WebGLRenderTarget`: an offscreen framebuffer owning one texture.
`texture` is the identity of that texture object; `floatType` records the
`FloatType`/`UnsignedByteType` choice made from `pass.FLOAT`.  `setSize` is
modelled by updating `width`/`height`. -/
structure WebGLRenderTarget where
  texture : Nat
  width : Int
  height : Int
  floatType : Bool
  deriving DecidableEq, Repr

/-- `RenderPassTarget` from the source: a named double-buffered pair plus the
compiled dynamic size expressions.  `targets.1` is `targets[0]` (front),
`targets.2` is `targets[1]` (back). -/
structure RenderPassTarget where
  name : String
  targets : WebGLRenderTarget × WebGLRenderTarget
  getWidth : Int → Int → Int
  getHeight : Int → Int → Int

/-- `RenderPass` from the source.  The THREE scene/camera/mesh are GPU-side
objects with no observable state of their own in the model; a pass's rendered
output is identified by the pass's index in the pipeline. -/
structure RenderPass where
  target : Option RenderPassTarget

/-- A `Pass` spec as supplied to `loadShader`.  `WIDTH`/`HEIGHT` carry the
size-expression functions the source compiles with `new Function` (`none` for
an absent or unparsable expression). -/
structure PassSpec where
  TARGET : Option String := none
  vs : Option String := none
  fs : Option String := none
  FLOAT : Bool := false
  WIDTH : Option (Int → Int → Int) := none
  HEIGHT : Option (Int → Int → Int) := none

/-- The canvas element handed to `setCanvas`. -/
structure Canvas where
  offsetWidth : Int
  offsetHeight : Int
  deriving DecidableEq, Repr

/-- `VedaOptions` after merging `DEFAULT_VEDA_OPTIONS`. -/
structure VedaOptions where
  pixelRatio : Int := 1
  frameskip : Nat := 1
  vertexCount : Int := 3000
  vertexMode : String := "TRIANGLES"
  deriving Repr

/-- The `Veda` class state.  `nextId`/`texStore` model the identities and
observable state of THREE texture objects; `display` is the tag of the last
render issued to the canvas (a `renderer.render(..., undefined)` call); the
audio/gif/camera/gamepad/key/midi/sound loaders live outside the repository
sources and carry no modelled state. -/
structure Veda where
  pixelRatio : Int
  frameskip : Nat
  vertexMode : String
  start : Int
  isPlaying : Bool
  frame : Nat
  passes : List RenderPass
  canvas : Option Canvas
  targets : WebGLRenderTarget × WebGLRenderTarget
  uniforms : Uniforms
  videoLoader : VideoLoader
  nextId : Nat
  texStore : TexStore
  display : Option (Nat × Int)

/-- The `Veda` constructor, taking the merged options and the `Date.now()`
reading.  Texture ids 0 and 1 belong to the two backbuffer render targets,
id 2 to the placeholder `new THREE.Texture()` initially bound to the
`backbuffer` uniform. -/
def Veda.new (rc : VedaOptions) (now : Int) : Veda where
  pixelRatio := rc.pixelRatio
  frameskip := rc.frameskip
  vertexMode := rc.vertexMode
  start := now
  isPlaying := false
  frame := 0
  passes := []
  canvas := none
  targets := (⟨0, 0, 0, false⟩, ⟨1, 0, 0, false⟩)
  uniforms :=
    [ ("backbuffer", ⟨"t", .tex 2⟩),
      ("mouse", ⟨"v2", .vec2 0 0⟩),
      ("mouseButtons", ⟨"v3", .vec3 0 0 0⟩),
      ("resolution", ⟨"v2", .vec2 0 0⟩),
      ("time", ⟨"f", .num 0⟩),
      ("vertexCount", ⟨"f", .num rc.vertexCount⟩),
      ("PASSINDEX", ⟨"i", .int 0⟩),
      ("FRAMEINDEX", ⟨"i", .int 0⟩) ]
  videoLoader := ⟨[], 0, []⟩
  nextId := 3
  texStore := [(0, ⟨none, false⟩), (1, ⟨none, false⟩), (2, ⟨none, false⟩)]
  display := none

/-! ## `src/veda.ts` — helpers over the state -/

/-- Record a render into texture id `id` with tag `tag`. -/
def writeTex (v : Veda) (id : Nat) (tag : Nat × Int) : Veda :=
  { v with texStore := updTex v.texStore id (fun ts => { ts with content := some tag }) }

/-- `texture.dispose()` on texture id `id`. -/
def disposeTex (v : Veda) (id : Nat) : Veda :=
  { v with texStore := updTex v.texStore id (fun ts => { ts with disposed := true }) }

/-- The last-render tag currently stored in texture id `id`. -/
def texContent (v : Veda) (id : Nat) : Option (Nat × Int) :=
  ((getTex v.texStore id).getD ⟨none, false⟩).content

/-- Whether texture id `id` has been disposed. -/
def texDisposed (v : Veda) (id : Nat) : Bool :=
  ((getTex v.texStore id).getD ⟨none, false⟩).disposed

/-- The current value of the `FRAMEINDEX` uniform (an integer in every
reachable state). -/
def frameIndexVal (v : Veda) : Int :=
  match getUVal v.uniforms "FRAMEINDEX" with
  | some (.int n) => n
  | _ => 0

/-- `this.uniforms.FRAMEINDEX.value++` (the uniform exists in every reachable
state; the source would throw on a missing entry). -/
def bumpFrameIndex (us : Uniforms) : Uniforms :=
  match getU us "FRAMEINDEX" with
  | some u => setU us "FRAMEINDEX" { u with value := match u.value with
      | .int n => .int (n + 1)
      | x => x }
  | none => us

/-- `this.uniforms.FRAMEINDEX.value = 0`. -/
def resetFrameIndex (us : Uniforms) : Uniforms :=
  setUVal us "FRAMEINDEX" (.int 0)

/-- `new THREE.WebGLRenderTarget(w, h, { ..., type })`: allocates a fresh
texture id and registers it in the store. -/
def newTarget (v : Veda) (w h : Int) (floatType : Bool) : WebGLRenderTarget × Veda :=
  (⟨v.nextId, w, h, floatType⟩,
    { v with
        nextId := v.nextId + 1
        texStore := setTex v.texStore v.nextId ⟨none, false⟩ })

/-- The name a pass's target is bound to, if any. -/
def passTargetName (p : RenderPass) : Option String := p.target.map (·.name)

/-- The texture id of a pass's back buffer (`target.targets[1]`), defaulting
to 0 for an unbound pass. -/
def passBackTex (p : RenderPass) : Nat :=
  match p.target with
  | some t => t.targets.2.texture
  | none => 0

/-- The texture ids of each pass's target pair, in pipeline order. -/
def pipelinePairIds (v : Veda) : List (List Nat) :=
  v.passes.map (fun p =>
    match p.target with
    | some t => [t.targets.1.texture, t.targets.2.texture]
    | none => [])

/-- `true` when no pass in `l` is bound to a target named `nm`. -/
def noTargetNamed (l : List RenderPass) (nm : String) : Bool :=
  l.all (fun q => !(passTargetName q == some nm))

/-- `true` when no bound pass in `l` has back-buffer texture id `id` (at most
the harmless default 0 of unbound passes). -/
def noBackTex (l : List RenderPass) (id : Nat) : Bool :=
  l.all (fun q =>
    match q.target with
    | some tq => !(tq.targets.2.texture == id)
    | none => true)

/-- `true` when every bound pass's pair texture ids are below `v.nextId`
(holds in every reachable state: ids are allocated from the counter). -/
def passIdsBounded (v : Veda) : Bool :=
  v.passes.all (fun p =>
    match p.target with
    | some t => t.targets.1.texture < v.nextId && t.targets.2.texture < v.nextId
    | none => true)

/-- `true` when some spec in `l` lacks both shader sources
(`!pass.fs && !pass.vs`). -/
def hasSourceless (l : List PassSpec) : Bool :=
  l.any (fun s => falsyStr s.fs && falsyStr s.vs)

/-! ## `src/veda.ts` — pipeline construction -/

/-- `createRenderPass(pass)`: throws before `setCanvas`; if the spec declares
a (truthy) target name, creates a fresh pair of render targets sized to the
canvas divided by the pixel ratio and binds the uniform under the target name
to the first target's texture.  The scene/camera/plane construction
(`createPlane`) builds GPU geometry with no state the model tracks. -/
def createRenderPass (v : Veda) (p : PassSpec) : Except String (RenderPass × Veda) :=
  match v.canvas with
  | none => .error "Call setCanvas() before loading shaders"
  | some c =>
      match truthyStr p.TARGET with
      | none => .ok ({ target := none }, v)
      | some targetName =>
          let getWidth := p.WIDTH.getD (fun w _ => w)
          let getHeight := p.HEIGHT.getD (fun _ h => h)
          let w := c.offsetWidth / v.pixelRatio
          let h := c.offsetHeight / v.pixelRatio
          let r0 := newTarget v w h p.FLOAT
          let r1 := newTarget r0.2 w h p.FLOAT
          let v2 := { r1.2 with
            uniforms := setU r1.2.uniforms targetName ⟨"t", .tex r0.1.texture⟩ }
          .ok ({ target := some { name := targetName, targets := (r0.1, r1.1),
                                  getWidth := getWidth, getHeight := getHeight } }, v2)

/-- The "Dispose old targets" loop of `loadShader`: disposes both textures of
every bound pass's pair. -/
def disposeList (v : Veda) : List RenderPass → Veda
  | [] => v
  | p :: rest =>
      match p.target with
      | some t =>
          disposeList (disposeTex (disposeTex v t.targets.1.texture) t.targets.2.texture) rest
      | none => disposeList v rest

/-- The "Create new Passes" map of `loadShader`: per spec, first the
`!pass.fs && !pass.vs` validation (throwing a `TypeError`), then
`createRenderPass`.  On a throw the state mutated so far is kept and the
built prefix is discarded, as in the source. -/
def buildPasses (v : Veda) : List PassSpec → Except String (List RenderPass) × Veda
  | [] => (.ok [], v)
  | s :: rest =>
      if falsyStr s.fs && falsyStr s.vs then
        (.error "Veda.loadShader: Invalid argument. Shaders must have fs or vs property.", v)
      else
        match createRenderPass v s with
        | .error e => (.error e, v)
        | .ok (rp, v1) =>
            let r := buildPasses v1 rest
            (r.1.map (rp :: ·), r.2)

/-- `loadShader(shader)` for an already-normalized array of specs: dispose the
old targets, build the new passes (a throw leaves `this.passes` unassigned),
then reset `FRAMEINDEX`. -/
def loadShader (v : Veda) (specs : List PassSpec) : Except String Unit × Veda :=
  let v0 := disposeList v v.passes
  match buildPasses v0 specs with
  | (.error e, v1) => (.error e, v1)
  | (.ok ps, v1) =>
      (.ok (), { v1 with passes := ps, uniforms := resetFrameIndex v1.uniforms })

/-- `loadFragmentShader(fs)`. -/
def loadFragmentShader (v : Veda) (fs : String) : Except String Unit × Veda :=
  loadShader v [{ fs := some fs }]

/-- `loadVertexShader(vs)`. -/
def loadVertexShader (v : Veda) (vs : String) : Except String Unit × Veda :=
  loadShader v [{ vs := some vs }]

/-! ## `src/veda.ts` — frame driver -/

/-- `WebGLRenderTarget.setSize(w, h)`. -/
def setSize (t : WebGLRenderTarget) (w h : Int) : WebGLRenderTarget :=
  { t with width := w, height := h }

/-- The body of the per-pass loop of `render` for one pass at index `i`:
set `PASSINDEX`; for a bound pass resolve the dynamic size, resize the back
buffer, render into it (tagged with the pass index and current `FRAMEINDEX`),
swap the pair and rebind the uniform under the target name to the new front
texture; for an unbound pass render straight to the display. -/
def runPass (v : Veda) (c : Canvas) (p : RenderPass) (i : Nat) : Veda × RenderPass :=
  let v1 := { v with uniforms := setUVal v.uniforms "PASSINDEX" (.int (Int.ofNat i)) }
  match p.target with
  | some t =>
      let w := c.offsetWidth / v1.pixelRatio
      let h := c.offsetHeight / v1.pixelRatio
      let back := setSize t.targets.2 (t.getWidth w h) (t.getHeight w h)
      let v2 := writeTex v1 back.texture (i, frameIndexVal v1)
      let pair := (t.targets.1, back)
      let t1 := { t with targets := swapPair pair }
      let v3 := { v2 with
        uniforms := setUVal v2.uniforms t.name (.tex (swapPair pair).1.texture) }
      (v3, { p with target := some t1 })
  | none =>
      ({ v1 with display := some (i, frameIndexVal v1) }, p)

/-- `this.passes.forEach(...)` in `render`, threading the state and collecting
the updated passes (the source mutates each pass's target pair in place). -/
def runPasses (c : Canvas) : Veda → List RenderPass → Nat → Veda × List RenderPass
  | v, [], _ => (v, [])
  | v, p :: rest, i =>
      let r := runPass v c p i
      let rr := runPasses c r.1 rest (i + 1)
      (rr.1, r.2 :: rr.2)

/-- The head of `render` before the pass loop: update the `time` uniform
(milliseconds elapsed since `this.start`), swap the backbuffer pair and rebind
the `backbuffer` uniform to the new front texture.  The
gif/audio/gamepad loader pulls that follow in the source read and write only
externally-owned state. -/
def renderPre (v : Veda) (now : Int) : Veda :=
  let v1 := { v with uniforms := setUVal v.uniforms "time" (.num (now - v.start)) }
  let v2 := { v1 with targets := swapPair v1.targets }
  { v2 with uniforms := setUVal v2.uniforms "backbuffer" (.tex v2.targets.1.texture) }

/-- The tail of `render` after the pass loop: re-render the last pass to the
display when it is bound to a target, render the last pass into the
backbuffer's back target, and increment `FRAMEINDEX`.  With an empty pipeline
the source throws on `lastPass.target` after the same prior mutations; the
model stops there instead. -/
def renderPost (v : Veda) : Veda :=
  match v.passes.getLast? with
  | none => v
  | some lastPass =>
      let v6 :=
        if lastPass.target.isSome then
          { v with display := some (v.passes.length - 1, frameIndexVal v) }
        else v
      let v7 := writeTex v6 v6.targets.2.texture (v6.passes.length - 1, frameIndexVal v6)
      { v7 with uniforms := bumpFrameIndex v7.uniforms }

/-- `render()`: the per-frame protocol in source order — `renderPre`, the
per-pass loop (which also updates the pass list in place), `renderPost`. -/
def render (v : Veda) (now : Int) : Veda :=
  match v.canvas with
  | none => v
  | some c =>
      let v3 := renderPre v now
      let r := runPasses c v3 v3.passes 0
      renderPost { r.1 with passes := r.2 }

/-- `animate()`: one display-synchronized tick.  The tick counter advances
unconditionally; `render` runs only while playing and only on ticks whose
counter is divisible by the frameskip stride. -/
def animate (v : Veda) (now : Int) : Veda :=
  let v1 := { v with frame := v.frame + 1 }
  if v1.isPlaying = false then v1
  else if v1.frame % v1.frameskip = 0 then render v1 now
  else v1

/-- `T` consecutive animation ticks, tick `t` observing wall clock
`clock t`. -/
def ticks (clock : Nat → Int) : Nat → Veda → Veda
  | 0, v => v
  | t + 1, v => animate (ticks clock t v) (clock t)

/-- `resize(width, height)`: resizes the display, every bound pass's pair and
the backbuffer pair to the pixel-ratio-scaled size and updates the
`resolution` uniform. -/
def resize (v : Veda) (w h : Int) : Veda :=
  match v.canvas with
  | none => v
  | some _ =>
      let bw := w / v.pixelRatio
      let bh := h / v.pixelRatio
      { v with
          passes := v.passes.map (fun p =>
            match p.target with
            | some t =>
                { p with target := some { t with
                    targets := (setSize t.targets.1 bw bh, setSize t.targets.2 bw bh) } }
            | none => p)
          targets := (setSize v.targets.1 bw bh, setSize v.targets.2 bw bh)
          uniforms := setUVal v.uniforms "resolution" (.vec2 bw bh) }

/-- `setCanvas(canvas)`: installs the canvas and renderer, resizes, resets the
tick counter and runs one `animate` tick. -/
def setCanvas (v : Veda) (c : Canvas) (now : Int) : Veda :=
  let v1 := resize { v with canvas := some c } c.offsetWidth c.offsetHeight
  animate { v1 with frame := 0 } now

/-- `play()` / `stop()`. -/
def play (v : Veda) (now : Int) : Veda :=
  animate { v with isPlaying := true } now

def stop (v : Veda) : Veda :=
  { v with isPlaying := false }

/-! ## `src/veda.ts` — texture lifecycle and uniforms -/

/-- `isGif` from the source: `file.match(/\.gif$/i)`. -/
def isGif (file : String) : Bool := file.toLower.endsWith ".gif"

/-- `isSound` from the source: `file.match(/\.(mp3|wav)$/i)`. -/
def isSound (file : String) : Bool :=
  file.toLower.endsWith ".mp3" || file.toLower.endsWith ".wav"

/-- `setUniform(name, type, value)`. -/
def setUniform (v : Veda) (name ty : String) (value : UniformValue) : Veda :=
  { v with uniforms := setU v.uniforms name ⟨ty, value⟩ }

/-- `unloadTexture(name, textureUrl, remove)`.  The very first statement
dereferences `this.uniforms[name].value`, so a name that was never installed
throws a `TypeError` (and a non-texture value has no `dispose`).  `isVid` is
the verdict of the external `is-video` package on `textureUrl`; the gif and
sound loaders are external collaborators whose `unload` holds no modelled
state. -/
def unloadTexture (v : Veda) (name textureUrl : String) (isVid remove : Bool) :
    Except String Veda :=
  match getU v.uniforms name with
  | none => .error "TypeError: cannot read property of undefined"
  | some u =>
      match u.value with
      | .tex id =>
          let v1 := disposeTex v id
          let v2 :=
            if remove && isVid then { v1 with videoLoader := v1.videoLoader.unload textureUrl }
            else v1
          .ok v2
      | _ => .error "TypeError: dispose is not a function"

/-! ## Concrete instances used to exercise the model -/

/-- A fresh instance with default options, constructed at `Date.now() = 0`. -/
def veda0 : Veda := Veda.new {} 0

/-- The demo canvas. -/
def demoCanvas : Canvas := ⟨640, 480⟩

/-- After `setCanvas`. -/
def vedaC : Veda := setCanvas veda0 demoCanvas 0

/-- The spec scenario pipeline: pass 0 renders into target `"A"`, pass 1
renders to the display. -/
def vedaA : Veda :=
  (loadShader vedaC [{ TARGET := some "A", fs := some "fsA" }, { fs := some "fsB" }]).2

/-- A pipeline whose two passes both declare target `"A"`. -/
def vedaAA : Veda :=
  (loadShader vedaC
    [{ TARGET := some "A", fs := some "fsA" }, { TARGET := some "A", fs := some "fsB" }]).2

/-- A one-pass pipeline whose target carries the given compiled `WIDTH` and
`HEIGHT` size expressions. -/
def sizedSpec (wExpr hExpr : Int → Int → Int) : PassSpec where
  TARGET := some "A"
  fs := some "fsA"
  WIDTH := some wExpr
  HEIGHT := some hExpr

def vedaSized (wExpr hExpr : Int → Int → Int) : Veda :=
  (loadShader vedaC [sizedSpec wExpr hExpr]).2

/-- The current size of the front target of the first pass's pair. -/
def pass0FrontSize (v : Veda) : Option (Int × Int) :=
  match v.passes with
  | p :: _ =>
      match p.target with
      | some t => some (t.targets.1.width, t.targets.1.height)
      | none => none
  | [] => none

/-- The scenario pipeline, playing with a frame-skip stride of 2 and the tick
counter at 0. -/
def vedaSkip : Veda := { vedaA with isPlaying := true, frameskip := 2, frame := 0 }

instance : Inhabited RenderPass := ⟨{ target := none }⟩

instance : Inhabited RenderPassTarget :=
  ⟨{ name := "", targets := (⟨0, 0, 0, false⟩, ⟨0, 0, 0, false⟩),
     getWidth := fun w _ => w, getHeight := fun _ h => h }⟩

/-! ## Lemmas about the association maps -/

theorem getU_setU (us : Uniforms) (k n : String) (u : Uniform) :
    getU (setU us k u) n = if k = n then some u else getU us n := by
  induction us with
  | nil => by_cases h : k = n <;> simp [getU, setU, h]
  | cons e rest ih =>
      obtain ⟨k0, u0⟩ := e
      by_cases h0 : k0 = k
      · by_cases h : k = n <;> simp [getU, setU, h0, h]
      · by_cases h : k0 = n
        · have h1 : ¬ k = n := fun hkn => h0 (h.trans hkn.symm)
          have h2 : ¬ n = k := fun hnk => h1 hnk.symm
          simp [getU, setU, h0, h, h1, h2]
        · simp [getU, setU, h0, h, ih]

theorem getUVal_setU (us : Uniforms) (k n : String) (u : Uniform) :
    getUVal (setU us k u) n = if k = n then some u.value else getUVal us n := by
  by_cases h : k = n <;> simp [getUVal, getU_setU, h]

theorem getU_setUVal (us : Uniforms) (k n : String) (val : UniformValue) :
    getU (setUVal us k val) n =
      if k = n then (getU us k).map (fun u => { u with value := val })
      else getU us n := by
  unfold setUVal
  cases h : getU us k with
  | none =>
      by_cases hkn : k = n
      · subst hkn; simp [h]
      · simp [hkn]
  | some u => by_cases hkn : k = n <;> simp [getU_setU, hkn, h]

theorem getUVal_setUVal (us : Uniforms) (k n : String) (val : UniformValue) :
    getUVal (setUVal us k val) n =
      if k = n then (getU us k).map (fun _ => val) else getUVal us n := by
  by_cases h : k = n
  · subst h
    cases hk : getU us k <;> simp [getUVal, getU_setUVal, hk]
  · simp [getUVal, getU_setUVal, h]

theorem getU_setUVal_ne (us : Uniforms) (k n : String) (val : UniformValue)
    (h : k ≠ n) : getU (setUVal us k val) n = getU us n := by
  simp [getU_setUVal, h]

theorem isSome_getU_setUVal (us : Uniforms) (k n : String) (val : UniformValue) :
    (getU (setUVal us k val) n).isSome = (getU us n).isSome := by
  by_cases h : k = n
  · subst h
    cases hk : getU us k <;> simp [getU_setUVal, hk]
  · simp [getU_setUVal, h]

theorem isSome_getU_setU (us : Uniforms) (k n : String) (u : Uniform)
    (h : (getU us n).isSome = true) : (getU (setU us k u) n).isSome = true := by
  by_cases hkn : k = n <;> simp [getU_setU, hkn, h]

theorem getTex_setTex (s : TexStore) (k n : Nat) (t : TexState) :
    getTex (setTex s k t) n = if k = n then some t else getTex s n := by
  induction s with
  | nil => by_cases h : k = n <;> simp [getTex, setTex, h]
  | cons e rest ih =>
      obtain ⟨k0, t0⟩ := e
      by_cases h0 : k0 = k
      · by_cases h : k = n <;> simp [getTex, setTex, h0, h]
      · by_cases h : k0 = n
        · have h1 : ¬ k = n := fun hkn => h0 (h.trans hkn.symm)
          have h2 : ¬ n = k := fun hnk => h1 hnk.symm
          simp [getTex, setTex, h0, h, h1, h2]
        · simp [getTex, setTex, h0, h, ih]

theorem getTex_updTex (s : TexStore) (k n : Nat) (f : TexState → TexState) :
    getTex (updTex s k f) n =
      if k = n then some (f ((getTex s k).getD ⟨none, false⟩)) else getTex s n := by
  simp [updTex, getTex_setTex]

theorem getCache_setCache (s : VideoCache) (k n : String) (e : Option VideoCacheEntry) :
    getCache (setCache s k e) n = if k = n then some e else getCache s n := by
  induction s with
  | nil => by_cases h : k = n <;> simp [getCache, setCache, h]
  | cons e0 rest ih =>
      obtain ⟨k0, v0⟩ := e0
      by_cases h0 : k0 = k
      · by_cases h : k = n <;> simp [getCache, setCache, h0, h]
      · by_cases h : k0 = n
        · have h1 : ¬ k = n := fun hkn => h0 (h.trans hkn.symm)
          have h2 : ¬ n = k := fun hnk => h1 hnk.symm
          simp [getCache, setCache, h0, h, h1, h2]
        · simp [getCache, setCache, h0, h, ih]

/-! ## Lemmas about texture disposal -/

theorem texDisposed_disposeTex (v : Veda) (id id2 : Nat)
    (h : texDisposed v id = true) : texDisposed (disposeTex v id2) id = true := by
  by_cases hi : id2 = id
  · subst hi; simp [texDisposed, disposeTex, getTex_updTex]
  · simpa [texDisposed, disposeTex, getTex_updTex, hi] using h

theorem texDisposed_disposeTex_self (v : Veda) (id : Nat) :
    texDisposed (disposeTex v id) id = true := by
  simp [texDisposed, disposeTex, getTex_updTex]

theorem texDisposed_disposeList (l : List RenderPass) (v : Veda) (id : Nat)
    (h : texDisposed v id = true) : texDisposed (disposeList v l) id = true := by
  induction l generalizing v with
  | nil => simpa [disposeList] using h
  | cons p rest ih =>
      cases hp : p.target with
      | some t =>
          simp only [disposeList, hp]
          exact ih _ (texDisposed_disposeTex _ _ _ (texDisposed_disposeTex _ _ _ h))
      | none =>
          simp only [disposeList, hp]
          exact ih _ h

theorem disposeList_same (l : List RenderPass) (v : Veda) :
    (disposeList v l).canvas = v.canvas ∧ (disposeList v l).passes = v.passes ∧
    (disposeList v l).nextId = v.nextId ∧ (disposeList v l).uniforms = v.uniforms := by
  induction l generalizing v with
  | nil => exact ⟨rfl, rfl, rfl, rfl⟩
  | cons p rest ih =>
      cases hp : p.target with
      | some t => simpa [disposeList, hp, disposeTex] using ih _
      | none => simpa [disposeList, hp] using ih v

theorem disposeList_disposes (l : List RenderPass) (v : Veda) (p : RenderPass)
    (t : RenderPassTarget) (hp : p ∈ l) (ht : p.target = some t) :
    texDisposed (disposeList v l) t.targets.1.texture = true ∧
    texDisposed (disposeList v l) t.targets.2.texture = true := by
  induction l generalizing v with
  | nil => cases hp
  | cons q rest ih =>
      rcases List.mem_cons.mp hp with h | h
      · subst h
        simp only [disposeList, ht]
        refine ⟨texDisposed_disposeList _ _ _ ?_, texDisposed_disposeList _ _ _ ?_⟩
        · exact texDisposed_disposeTex _ _ _ (texDisposed_disposeTex_self _ _)
        · exact texDisposed_disposeTex_self _ _
      · cases hq : q.target with
        | some t2 => simp only [disposeList, hq]; exact ih _ h
        | none => simp only [disposeList, hq]; exact ih _ h

/-! ## Lemmas about pipeline construction -/

theorem createRenderPass_ok_same (v : Veda) (s : PassSpec) (rp : RenderPass) (v1 : Veda)
    (h : createRenderPass v s = .ok (rp, v1)) :
    v1.canvas = v.canvas ∧ v1.passes = v.passes ∧ v.nextId ≤ v1.nextId ∧
    v1.targets = v.targets ∧ v1.frame = v.frame ∧ v1.frameskip = v.frameskip ∧
    v1.isPlaying = v.isPlaying ∧ v1.start = v.start ∧ v1.pixelRatio = v.pixelRatio := by
  cases hc : v.canvas with
  | none => simp [createRenderPass, hc] at h
  | some c =>
      cases ht : truthyStr s.TARGET with
      | none =>
          simp only [createRenderPass, hc, ht, Except.ok.injEq, Prod.mk.injEq] at h
          obtain ⟨-, h2⟩ := h
          subst h2
          refine ⟨by simp [hc], rfl, Nat.le_refl _, rfl, rfl, rfl, rfl, rfl, rfl⟩
      | some nm =>
          simp only [createRenderPass, hc, ht, newTarget, Except.ok.injEq, Prod.mk.injEq] at h
          obtain ⟨-, h2⟩ := h
          subst h2
          refine ⟨by simp [hc], rfl, ?_, rfl, rfl, rfl, rfl, rfl, rfl⟩
          show v.nextId ≤ v.nextId + 1 + 1
          omega

theorem createRenderPass_ok_texPreserve (v : Veda) (s : PassSpec) (rp : RenderPass)
    (v1 : Veda) (h : createRenderPass v s = .ok (rp, v1)) (id : Nat)
    (hid : id < v.nextId) : getTex v1.texStore id = getTex v.texStore id := by
  cases hc : v.canvas with
  | none => simp [createRenderPass, hc] at h
  | some c =>
      cases ht : truthyStr s.TARGET with
      | none =>
          simp only [createRenderPass, hc, ht, Except.ok.injEq, Prod.mk.injEq] at h
          obtain ⟨-, h2⟩ := h
          subst h2
          rfl
      | some nm =>
          simp only [createRenderPass, hc, ht, newTarget, Except.ok.injEq, Prod.mk.injEq] at h
          obtain ⟨-, h2⟩ := h
          subst h2
          have h1 : ¬ (v.nextId = id) := by omega
          have h2 : ¬ (v.nextId + 1 = id) := by omega
          simp [getTex_setTex, h1, h2]

theorem createRenderPass_ok_isSome (v : Veda) (s : PassSpec) (rp : RenderPass)
    (v1 : Veda) (h : createRenderPass v s = .ok (rp, v1)) (n : String)
    (hn : (getU v.uniforms n).isSome = true) : (getU v1.uniforms n).isSome = true := by
  cases hc : v.canvas with
  | none => simp [createRenderPass, hc] at h
  | some c =>
      cases ht : truthyStr s.TARGET with
      | none =>
          simp only [createRenderPass, hc, ht, Except.ok.injEq, Prod.mk.injEq] at h
          obtain ⟨-, h2⟩ := h
          subst h2
          exact hn
      | some nm =>
          simp only [createRenderPass, hc, ht, newTarget, Except.ok.injEq, Prod.mk.injEq] at h
          obtain ⟨-, h2⟩ := h
          subst h2
          exact isSome_getU_setU _ _ _ _ hn

theorem createRenderPass_ok_of_canvas (v : Veda) (s : PassSpec) (c : Canvas)
    (hc : v.canvas = some c) : (createRenderPass v s).isOk = true := by
  cases ht : truthyStr s.TARGET with
  | none => simp [createRenderPass, hc, ht, Except.isOk, Except.toBool]
  | some nm => simp [createRenderPass, hc, ht, Except.isOk, Except.toBool]

theorem createRenderPass_canvasNone (v : Veda) (s : PassSpec)
    (hc : v.canvas = none) :
    createRenderPass v s = .error "Call setCanvas() before loading shaders" := by
  simp [createRenderPass, hc]

theorem buildPasses_same (l : List PassSpec) (v : Veda) :
    (buildPasses v l).2.canvas = v.canvas ∧ (buildPasses v l).2.passes = v.passes ∧
    v.nextId ≤ (buildPasses v l).2.nextId := by
  induction l generalizing v with
  | nil => exact ⟨rfl, rfl, Nat.le_refl _⟩
  | cons s rest ih =>
      by_cases hs : (falsyStr s.fs && falsyStr s.vs) = true
      · simp [buildPasses, hs]
      · cases hcr : createRenderPass v s with
        | error e => simp [buildPasses, hs, hcr]
        | ok r =>
            obtain ⟨rp, v1⟩ := r
            obtain ⟨hc1, hp1, hn1, -⟩ := createRenderPass_ok_same v s rp v1 hcr
            obtain ⟨ihc, ihp, ihn⟩ := ih v1
            simp only [buildPasses, hs, hcr]
            exact ⟨ihc.trans hc1, ihp.trans hp1, hn1.trans ihn⟩

theorem buildPasses_texPreserve (l : List PassSpec) (v : Veda) (id : Nat)
    (hid : id < v.nextId) :
    getTex (buildPasses v l).2.texStore id = getTex v.texStore id := by
  induction l generalizing v with
  | nil => rfl
  | cons s rest ih =>
      by_cases hs : (falsyStr s.fs && falsyStr s.vs) = true
      · simp [buildPasses, hs]
      · cases hcr : createRenderPass v s with
        | error e => simp [buildPasses, hs, hcr]
        | ok r =>
            obtain ⟨rp, v1⟩ := r
            obtain ⟨-, -, hn1, -⟩ := createRenderPass_ok_same v s rp v1 hcr
            have hid1 : id < v1.nextId := lt_of_lt_of_le hid hn1
            simp only [buildPasses, hs, hcr]
            exact (ih v1 hid1).trans (createRenderPass_ok_texPreserve v s rp v1 hcr id hid)

theorem buildPasses_isSome (l : List PassSpec) (v : Veda) (n : String)
    (hn : (getU v.uniforms n).isSome = true) :
    (getU (buildPasses v l).2.uniforms n).isSome = true := by
  induction l generalizing v with
  | nil => exact hn
  | cons s rest ih =>
      by_cases hs : (falsyStr s.fs && falsyStr s.vs) = true
      · simpa [buildPasses, hs] using hn
      · cases hcr : createRenderPass v s with
        | error e => simpa [buildPasses, hs, hcr] using hn
        | ok r =>
            obtain ⟨rp, v1⟩ := r
            simp only [buildPasses, hs, hcr]
            exact ih v1 (createRenderPass_ok_isSome v s rp v1 hcr n hn)

theorem buildPasses_isOk_false_of_sourceless (l : List PassSpec) (v : Veda)
    (hbad : hasSourceless l = true) : ((buildPasses v l).1).isOk = false := by
  induction l generalizing v with
  | nil => simp [hasSourceless] at hbad
  | cons s rest ih =>
      by_cases hs : (falsyStr s.fs && falsyStr s.vs) = true
      · simp [buildPasses, hs, Except.isOk, Except.toBool]
      · have hrest : hasSourceless rest = true := by
          simpa [hasSourceless, hs] using hbad
        cases hcr : createRenderPass v s with
        | error e => simp [buildPasses, hs, hcr, Except.isOk, Except.toBool]
        | ok r =>
            obtain ⟨rp, v1⟩ := r
            have := ih v1 hrest
            simp only [buildPasses, hs, hcr]
            cases hr : (buildPasses v1 rest).1 with
            | error e => simp [Except.isOk, Except.toBool, Except.map]
            | ok rps => rw [hr] at this; simp [Except.isOk, Except.toBool] at this

theorem buildPasses_ok_of_sourced (l : List PassSpec) (c : Canvas) :
    ∀ v : Veda, v.canvas = some c → hasSourceless l = false →
      ((buildPasses v l).1).isOk = true := by
  induction l with
  | nil =>
      intro v hc hall
      simp [buildPasses, Except.isOk, Except.toBool]
  | cons s rest ih =>
      intro v hc hall
      rw [hasSourceless, List.any_cons] at hall
      obtain ⟨hs, hrest⟩ := Bool.or_eq_false_iff.mp hall
      cases hcr : createRenderPass v s with
      | error e =>
          have hok := createRenderPass_ok_of_canvas v s c hc
          rw [hcr] at hok
          simp [Except.isOk, Except.toBool] at hok
      | ok r =>
          obtain ⟨rp, v1⟩ := r
          obtain ⟨hc1, -⟩ := createRenderPass_ok_same v s rp v1 hcr
          have hih := ih v1 (hc1.trans hc) hrest
          simp only [buildPasses, hs, Bool.false_eq_true, if_false, hcr]
          cases hr : (buildPasses v1 rest).1 with
          | error e => rw [hr] at hih; simp [Except.isOk, Except.toBool] at hih
          | ok rps => simp [Except.isOk, Except.toBool, Except.map]

/-! ## Lemmas about the per-pass loop -/

theorem runPass_same (v : Veda) (c : Canvas) (p : RenderPass) (i : Nat) :
    (runPass v c p i).1.canvas = v.canvas ∧
    (runPass v c p i).1.passes = v.passes ∧
    (runPass v c p i).1.targets = v.targets ∧
    (runPass v c p i).1.frame = v.frame ∧
    (runPass v c p i).1.frameskip = v.frameskip ∧
    (runPass v c p i).1.isPlaying = v.isPlaying ∧
    (runPass v c p i).1.start = v.start ∧
    (runPass v c p i).1.pixelRatio = v.pixelRatio ∧
    (runPass v c p i).1.nextId = v.nextId := by
  cases hp : p.target <;> simp [runPass, hp, writeTex]

theorem runPass_name (v : Veda) (c : Canvas) (p : RenderPass) (i : Nat) :
    passTargetName (runPass v c p i).2 = passTargetName p := by
  cases hp : p.target <;> simp [runPass, hp, passTargetName]

theorem runPass_isSome (v : Veda) (c : Canvas) (p : RenderPass) (i : Nat) (n : String) :
    (getU (runPass v c p i).1.uniforms n).isSome = (getU v.uniforms n).isSome := by
  cases hp : p.target <;> simp [runPass, hp, writeTex, isSome_getU_setUVal]

theorem runPass_getU (v : Veda) (c : Canvas) (p : RenderPass) (i : Nat) (nm : String)
    (hPI : nm ≠ "PASSINDEX") (hname : passTargetName p ≠ some nm) :
    getU (runPass v c p i).1.uniforms nm = getU v.uniforms nm := by
  cases hp : p.target with
  | none => simp [runPass, hp, getU_setUVal_ne _ _ _ _ (Ne.symm hPI)]
  | some t =>
      have htn : t.name ≠ nm := by
        intro he
        exact hname (by simp [passTargetName, hp, he])
      simp [runPass, hp, writeTex, getU_setUVal_ne _ _ _ _ (Ne.symm hPI),
        getU_setUVal_ne _ _ _ _ htn]

theorem runPass_getTex (v : Veda) (c : Canvas) (p : RenderPass) (i : Nat) (id : Nat)
    (h : ∀ t, p.target = some t → t.targets.2.texture ≠ id) :
    getTex (runPass v c p i).1.texStore id = getTex v.texStore id := by
  cases hp : p.target with
  | none => simp [runPass, hp]
  | some t =>
      have := h t hp
      simp [runPass, hp, writeTex, setSize, getTex_updTex, this]

theorem runPass_frameIndexVal (v : Veda) (c : Canvas) (p : RenderPass) (i : Nat)
    (hn : passTargetName p ≠ some "FRAMEINDEX") :
    frameIndexVal (runPass v c p i).1 = frameIndexVal v := by
  have h : getU (runPass v c p i).1.uniforms "FRAMEINDEX" = getU v.uniforms "FRAMEINDEX" :=
    runPass_getU v c p i "FRAMEINDEX" (by decide) hn
  simp [frameIndexVal, getUVal, h]

theorem runPass_bound (v : Veda) (c : Canvas) (p : RenderPass) (i : Nat)
    (t : RenderPassTarget) (ht : p.target = some t)
    (hpres : (getU v.uniforms t.name).isSome = true) :
    getUVal (runPass v c p i).1.uniforms t.name = some (.tex t.targets.2.texture) ∧
    texContent (runPass v c p i).1 t.targets.2.texture = some (i, frameIndexVal v) := by
  have hfi :
      frameIndexVal { v with uniforms := setUVal v.uniforms "PASSINDEX" (.int (Int.ofNat i)) }
        = frameIndexVal v := by
    simp [frameIndexVal, getUVal_setUVal]
  constructor
  · have hps : (getU (setUVal v.uniforms "PASSINDEX" (.int (Int.ofNat i))) t.name).isSome
        = true := by
      rw [isSome_getU_setUVal]; exact hpres
    obtain ⟨u, hu⟩ := Option.isSome_iff_exists.mp hps
    simp [runPass, ht, writeTex, getUVal_setUVal, setSize]
    exact ⟨⟨u, hu⟩, rfl⟩
  · simp [runPass, ht, writeTex, texContent, getTex_updTex, setSize]
    exact hfi

theorem runPasses_same (c : Canvas) (l : List RenderPass) :
    ∀ (v : Veda) (i : Nat),
      (runPasses c v l i).1.canvas = v.canvas ∧
      (runPasses c v l i).1.passes = v.passes ∧
      (runPasses c v l i).1.targets = v.targets ∧
      (runPasses c v l i).1.frame = v.frame ∧
      (runPasses c v l i).1.frameskip = v.frameskip ∧
      (runPasses c v l i).1.isPlaying = v.isPlaying ∧
      (runPasses c v l i).1.start = v.start ∧
      (runPasses c v l i).1.pixelRatio = v.pixelRatio ∧
      (runPasses c v l i).1.nextId = v.nextId := by
  induction l with
  | nil => intro v i; exact ⟨rfl, rfl, rfl, rfl, rfl, rfl, rfl, rfl, rfl⟩
  | cons p rest ih =>
      intro v i
      simp only [runPasses]
      obtain ⟨a1, a2, a3, a4, a5, a6, a7, a8, a9⟩ := runPass_same v c p i
      obtain ⟨b1, b2, b3, b4, b5, b6, b7, b8, b9⟩ := ih (runPass v c p i).1 (i + 1)
      exact ⟨b1.trans a1, b2.trans a2, b3.trans a3, b4.trans a4, b5.trans a5,
        b6.trans a6, b7.trans a7, b8.trans a8, b9.trans a9⟩

theorem runPasses_names (c : Canvas) (l : List RenderPass) :
    ∀ (v : Veda) (i : Nat),
      (runPasses c v l i).2.map passTargetName = l.map passTargetName := by
  induction l with
  | nil => intro v i; rfl
  | cons p rest ih =>
      intro v i
      simp only [runPasses, List.map_cons]
      rw [runPass_name, ih]

theorem runPasses_isSome (c : Canvas) (l : List RenderPass) (n : String) :
    ∀ (v : Veda) (i : Nat),
      (getU (runPasses c v l i).1.uniforms n).isSome = (getU v.uniforms n).isSome := by
  induction l with
  | nil => intro v i; rfl
  | cons p rest ih =>
      intro v i
      simp only [runPasses]
      rw [ih, runPass_isSome]

theorem runPasses_getU (c : Canvas) (l : List RenderPass) (nm : String)
    (hPI : nm ≠ "PASSINDEX") :
    ∀ (v : Veda) (i : Nat), noTargetNamed l nm = true →
      getU (runPasses c v l i).1.uniforms nm = getU v.uniforms nm := by
  induction l with
  | nil => intro v i _; rfl
  | cons p rest ih =>
      intro v i hl
      rw [noTargetNamed, List.all_cons] at hl
      obtain ⟨hp, hrest⟩ := Bool.and_eq_true_iff.mp hl
      have hname : passTargetName p ≠ some nm := by
        intro he
        simp [he] at hp
      simp only [runPasses]
      rw [ih _ _ hrest, runPass_getU _ _ _ _ _ hPI hname]

theorem runPasses_getTex (c : Canvas) (l : List RenderPass) (id : Nat) :
    ∀ (v : Veda) (i : Nat), noBackTex l id = true →
      getTex (runPasses c v l i).1.texStore id = getTex v.texStore id := by
  induction l with
  | nil => intro v i _; rfl
  | cons p rest ih =>
      intro v i hl
      rw [noBackTex, List.all_cons] at hl
      obtain ⟨hp, hrest⟩ := Bool.and_eq_true_iff.mp hl
      have hid : ∀ t, p.target = some t → t.targets.2.texture ≠ id := by
        intro t ht he
        rw [ht] at hp
        simp [he] at hp
      simp only [runPasses]
      rw [ih _ _ hrest, runPass_getTex _ _ _ _ _ hid]

theorem runPasses_frameIndexVal (c : Canvas) (l : List RenderPass) (v : Veda) (i : Nat)
    (hl : noTargetNamed l "FRAMEINDEX" = true) :
    frameIndexVal (runPasses c v l i).1 = frameIndexVal v := by
  have h := runPasses_getU c l "FRAMEINDEX" (by decide) v i hl
  simp [frameIndexVal, getUVal, h]

theorem runPasses_append (c : Canvas) (l1 l2 : List RenderPass) :
    ∀ (v : Veda) (i : Nat),
      runPasses c v (l1 ++ l2) i =
        ((runPasses c (runPasses c v l1 i).1 l2 (i + l1.length)).1,
          (runPasses c v l1 i).2 ++
            (runPasses c (runPasses c v l1 i).1 l2 (i + l1.length)).2) := by
  induction l1 with
  | nil => intro v i; simp [runPasses]
  | cons p rest ih =>
      intro v i
      have harith : i + 1 + rest.length = i + (rest.length + 1) := by omega
      simp only [List.cons_append, runPasses, List.length_cons, List.append_eq]
      rw [ih, harith]

/-! ## Lemmas about the frame driver -/

theorem renderPre_fields (v : Veda) (now : Int) :
    (renderPre v now).canvas = v.canvas ∧ (renderPre v now).passes = v.passes ∧
    (renderPre v now).targets = swapPair v.targets ∧
    (renderPre v now).texStore = v.texStore ∧
    (renderPre v now).frame = v.frame ∧ (renderPre v now).frameskip = v.frameskip ∧
    (renderPre v now).isPlaying = v.isPlaying ∧ (renderPre v now).start = v.start ∧
    (renderPre v now).pixelRatio = v.pixelRatio :=
  ⟨rfl, rfl, rfl, rfl, rfl, rfl, rfl, rfl, rfl⟩

theorem renderPre_getU_ne (v : Veda) (now : Int) (nm : String)
    (h1 : nm ≠ "time") (h2 : nm ≠ "backbuffer") :
    getU (renderPre v now).uniforms nm = getU v.uniforms nm := by
  show getU (setUVal (setUVal v.uniforms "time" _) "backbuffer" _) nm = _
  rw [getU_setUVal_ne _ _ _ _ (Ne.symm h2), getU_setUVal_ne _ _ _ _ (Ne.symm h1)]

theorem renderPre_isSome (v : Veda) (now : Int) (n : String) :
    (getU (renderPre v now).uniforms n).isSome = (getU v.uniforms n).isSome := by
  show (getU (setUVal (setUVal v.uniforms "time" _) "backbuffer" _) n).isSome = _
  rw [isSome_getU_setUVal, isSome_getU_setUVal]

theorem renderPre_frameIndexVal (v : Veda) (now : Int) :
    frameIndexVal (renderPre v now) = frameIndexVal v := by
  have h := renderPre_getU_ne v now "FRAMEINDEX" (by decide) (by decide)
  simp [frameIndexVal, getUVal, h]

theorem getU_bumpFrameIndex_ne (us : Uniforms) (nm : String) (h : nm ≠ "FRAMEINDEX") :
    getU (bumpFrameIndex us) nm = getU us nm := by
  unfold bumpFrameIndex
  cases hf : getU us "FRAMEINDEX" with
  | none => rfl
  | some u =>
      rw [getU_setU, if_neg (fun he => h he.symm)]

theorem renderPost_fields (v : Veda) :
    (renderPost v).canvas = v.canvas ∧ (renderPost v).passes = v.passes ∧
    (renderPost v).frame = v.frame ∧ (renderPost v).frameskip = v.frameskip ∧
    (renderPost v).isPlaying = v.isPlaying ∧ (renderPost v).start = v.start ∧
    (renderPost v).pixelRatio = v.pixelRatio ∧ (renderPost v).targets = v.targets ∧
    (renderPost v).nextId = v.nextId := by
  cases hL : v.passes.getLast? with
  | none => simp [renderPost, hL]
  | some lp =>
      cases hq : lp.target.isSome <;> simp [renderPost, hL, hq, writeTex]

theorem renderPost_getU_ne (v : Veda) (nm : String) (h : nm ≠ "FRAMEINDEX") :
    getU (renderPost v).uniforms nm = getU v.uniforms nm := by
  cases hL : v.passes.getLast? with
  | none => simp [renderPost, hL]
  | some lp =>
      cases hq : lp.target.isSome <;>
        simp [renderPost, hL, hq, writeTex, getU_bumpFrameIndex_ne _ _ h]

theorem renderPost_getTex (v : Veda) (id : Nat) (hid : v.targets.2.texture ≠ id) :
    getTex (renderPost v).texStore id = getTex v.texStore id := by
  cases hL : v.passes.getLast? with
  | none => simp [renderPost, hL]
  | some lp =>
      cases hq : lp.target.isSome <;>
        simp [renderPost, hL, hq, writeTex, getTex_updTex, hid]

theorem renderPost_frameIndex (v : Veda) (ty : String) (k : Int) (hne : v.passes ≠ [])
    (hFI : getU v.uniforms "FRAMEINDEX" = some ⟨ty, .int k⟩) :
    getU (renderPost v).uniforms "FRAMEINDEX" = some ⟨ty, .int (k + 1)⟩ := by
  cases hL : v.passes.getLast? with
  | none => exact absurd (List.getLast?_eq_none_iff.mp hL) hne
  | some lp =>
      cases hq : lp.target.isSome <;>
        simp [renderPost, hL, hq, writeTex, bumpFrameIndex, hFI, getU_setU]

theorem noTargetNamed_of_map (l1 : List RenderPass) :
    ∀ (l2 : List RenderPass) (nm : String),
      l1.map passTargetName = l2.map passTargetName →
      noTargetNamed l1 nm = noTargetNamed l2 nm := by
  induction l1 with
  | nil =>
      intro l2 nm h
      cases l2 with
      | nil => rfl
      | cons b m => simp at h
  | cons a l ih =>
      intro l2 nm h
      cases l2 with
      | nil => simp at h
      | cons b m =>
          simp only [List.map_cons, List.cons.injEq] at h
          obtain ⟨h1, h2⟩ := h
          simp only [noTargetNamed, List.all_cons]
          rw [h1]
          have hm := ih m nm h2
          simp only [noTargetNamed] at hm
          rw [hm]

theorem render_eq (v : Veda) (now : Int) (c : Canvas) (hc : v.canvas = some c) :
    render v now =
      renderPost
        { (runPasses c (renderPre v now) (renderPre v now).passes 0).1 with
            passes := (runPasses c (renderPre v now) (renderPre v now).passes 0).2 } := by
  simp [render, hc]

theorem render_fields (v : Veda) (now : Int) :
    (render v now).canvas = v.canvas ∧ (render v now).frame = v.frame ∧
    (render v now).frameskip = v.frameskip ∧ (render v now).isPlaying = v.isPlaying ∧
    (render v now).start = v.start ∧ (render v now).pixelRatio = v.pixelRatio := by
  cases hc : v.canvas with
  | none => simp [render, hc]
  | some c =>
      rw [render_eq v now c hc]
      generalize hR : runPasses c (renderPre v now) (renderPre v now).passes 0 = r
      obtain ⟨p1, p2, p3, p4, p5, p6, p7, p8, p9⟩ :=
        renderPost_fields { r.1 with passes := r.2 }
      have s := runPasses_same c (renderPre v now).passes (renderPre v now) 0
      rw [hR] at s
      obtain ⟨s1, s2, s3, s4, s5, s6, s7, s8, s9⟩ := s
      refine ⟨?_, p3.trans s4, p4.trans s5, p5.trans s6, p6.trans s7, p7.trans s8⟩
      exact (p1.trans s1).trans (show (renderPre v now).canvas = some c from hc)

theorem render_passNames (v : Veda) (now : Int) :
    (render v now).passes.map passTargetName = v.passes.map passTargetName := by
  cases hc : v.canvas with
  | none => simp [render, hc]
  | some c =>
      rw [render_eq v now c hc]
      generalize hR : runPasses c (renderPre v now) (renderPre v now).passes 0 = r
      have p2 := (renderPost_fields { r.1 with passes := r.2 }).2.1
      have hnm := runPasses_names c (renderPre v now).passes (renderPre v now) 0
      rw [hR] at hnm
      rw [p2]
      exact hnm

theorem render_passLength (v : Veda) (now : Int) :
    (render v now).passes.length = v.passes.length := by
  have h := congrArg List.length (render_passNames v now)
  simpa using h

theorem render_frameIndex (v : Veda) (now : Int) (c : Canvas) (ty : String) (k : Int)
    (hc : v.canvas = some c) (hne : v.passes ≠ [])
    (hn : noTargetNamed v.passes "FRAMEINDEX" = true)
    (hFI : getU v.uniforms "FRAMEINDEX" = some ⟨ty, .int k⟩) :
    getU (render v now).uniforms "FRAMEINDEX" = some ⟨ty, .int (k + 1)⟩ := by
  rw [render_eq v now c hc]
  generalize hR : runPasses c (renderPre v now) (renderPre v now).passes 0 = r
  have h3 : getU (renderPre v now).uniforms "FRAMEINDEX" = some ⟨ty, .int k⟩ := by
    rw [renderPre_getU_ne v now _ (by decide) (by decide)]
    exact hFI
  have hU := runPasses_getU c (renderPre v now).passes "FRAMEINDEX" (by decide)
    (renderPre v now) 0 hn
  rw [hR] at hU
  have hXne : ({ r.1 with passes := r.2 } : Veda).passes ≠ [] := by
    show r.2 ≠ []
    have hlen := runPasses_names c (renderPre v now).passes (renderPre v now) 0
    rw [hR] at hlen
    intro hnil
    rw [hnil] at hlen
    cases hp : v.passes with
    | nil => exact hne hp
    | cons a l =>
        rw [show (renderPre v now).passes = v.passes from rfl, hp] at hlen
        simp at hlen
  have hXFI : getU ({ r.1 with passes := r.2 } : Veda).uniforms "FRAMEINDEX"
      = some ⟨ty, .int k⟩ := by
    show getU r.1.uniforms "FRAMEINDEX" = _
    rw [hU]
    exact h3
  exact renderPost_frameIndex _ ty k hXne hXFI

theorem animate_skip (v : Veda) (now : Int) (hp : v.isPlaying = true)
    (hmod : (v.frame + 1) % v.frameskip ≠ 0) :
    animate v now = { v with frame := v.frame + 1 } := by
  simp [animate, hp, hmod]

theorem animate_run (v : Veda) (now : Int) (hp : v.isPlaying = true)
    (hmod : (v.frame + 1) % v.frameskip = 0) :
    animate v now = render { v with frame := v.frame + 1 } now := by
  simp [animate, hp, hmod]

/-- The invariant maintained across animation ticks: the driver state keeps
playing with the same canvas and stride, the tick counter counts the ticks,
the pipeline shape survives, and `FRAMEINDEX` counts exactly the executed
renders, `⌊T / S⌋` of them. -/
theorem ticks_invariant (clock : Nat → Int) (c : Canvas) (S : Nat) (ty : String)
    (n : Int) (v : Veda)
    (hp : v.isPlaying = true) (hc : v.canvas = some c) (hs : v.frameskip = S)
    (hf : v.frame = 0) (hne : v.passes ≠ [])
    (hn : noTargetNamed v.passes "FRAMEINDEX" = true)
    (hFI : getU v.uniforms "FRAMEINDEX" = some ⟨ty, .int n⟩) :
    ∀ T : Nat,
      (ticks clock T v).isPlaying = true ∧ (ticks clock T v).canvas = some c ∧
      (ticks clock T v).frameskip = S ∧ (ticks clock T v).frame = T ∧
      (ticks clock T v).passes ≠ [] ∧
      noTargetNamed (ticks clock T v).passes "FRAMEINDEX" = true ∧
      getU (ticks clock T v).uniforms "FRAMEINDEX"
        = some ⟨ty, .int (n + (T / S : Nat))⟩ := by
  intro T
  induction T with
  | zero =>
      refine ⟨hp, hc, hs, hf, hne, hn, ?_⟩
      simpa [ticks] using hFI
  | succ T ih =>
      obtain ⟨i1, i2, i3, i4, i5, i6, i7⟩ := ih
      by_cases hmod : ((ticks clock T v).frame + 1) % (ticks clock T v).frameskip = 0
      · rw [ticks, animate_run _ _ i1 hmod]
        have hdvd : S ∣ T + 1 := by
          rw [i4, i3] at hmod
          exact Nat.dvd_of_mod_eq_zero hmod
        have hw1c : ({ ticks clock T v with frame := (ticks clock T v).frame + 1 }
            : Veda).canvas = some c := i2
        have hw1ne : ({ ticks clock T v with frame := (ticks clock T v).frame + 1 }
            : Veda).passes ≠ [] := i5
        have hw1n : noTargetNamed ({ ticks clock T v with
            frame := (ticks clock T v).frame + 1 } : Veda).passes "FRAMEINDEX" = true := i6
        have hw1FI : getU ({ ticks clock T v with
            frame := (ticks clock T v).frame + 1 } : Veda).uniforms "FRAMEINDEX"
            = some ⟨ty, .int (n + (T / S : Nat))⟩ := i7
        obtain ⟨f1, f2, f3, f4, f5, f6⟩ :=
          render_fields { ticks clock T v with frame := (ticks clock T v).frame + 1 }
            (clock T)
        refine ⟨?_, ?_, ?_, ?_, ?_, ?_, ?_⟩
        · rw [f4]; exact i1
        · rw [f1]; exact hw1c
        · rw [f3]; exact i3
        · rw [f2]; show (ticks clock T v).frame + 1 = T + 1; rw [i4]
        · intro hnil
          have hlen := render_passLength
            { ticks clock T v with frame := (ticks clock T v).frame + 1 } (clock T)
          rw [hnil] at hlen
          exact hw1ne (List.length_eq_zero.mp hlen.symm)
        · rw [noTargetNamed_of_map _ _ _ (render_passNames _ (clock T))]
          exact hw1n
        · rw [render_frameIndex _ (clock T) c ty (n + (T / S : Nat)) hw1c hw1ne hw1n hw1FI]
          have hq : (T + 1) / S = T / S + 1 := Nat.succ_div_of_dvd hdvd
          rw [hq]
          congr 2
          push_cast
          ring_nf
      · rw [ticks, animate_skip _ _ i1 hmod]
        have hnd : ¬ S ∣ T + 1 := by
          rw [i4, i3] at hmod
          exact fun hd => hmod (Nat.mod_eq_zero_of_dvd hd)
        have hq : (T + 1) / S = T / S := Nat.succ_div_of_not_dvd hnd
        refine ⟨i1, i2, i3, ?_, i5, i6, ?_⟩
        · show (ticks clock T v).frame + 1 = T + 1; rw [i4]
        · show getU (ticks clock T v).uniforms "FRAMEINDEX" = _
          rw [i7, hq]

/-! ## The claims -/

/-- C6: for every render-target pair (named pairs and the backbuffer pair
alike, both swapped with the same two-element-array reversal), the swap
exchanges the front and back roles, and two swaps in a row restore the
original front/back assignment. -/
theorem c6_double_swap_identity (p : WebGLRenderTarget × WebGLRenderTarget) :
    swapPair (swapPair p) = p ∧ (swapPair p).1 = p.2 ∧ (swapPair p).2 = p.1 :=
  ⟨rfl, rfl, rfl⟩

/-- C7: `VideoLoader.load` is idempotent by URL: a second load of the same URL
(with any name and speed) returns the first call's texture handle, updates the
cached video element's playback rate to the new speed, and creates no second
video element or texture (the fresh-id counter and the set of video elements
in the document are unchanged). -/
theorem c7_video_load_idempotent (l : VideoLoader) (name1 name2 url : String)
    (speed1 speed2 : Rat) :
    ((l.load name1 url speed1).2.load name2 url speed2).1
      = (l.load name1 url speed1).1 ∧
    ((l.load name1 url speed1).2.load name2 url speed2).2.nextId
      = (l.load name1 url speed1).2.nextId ∧
    ((l.load name1 url speed1).2.load name2 url speed2).2.domVideos
      = (l.load name1 url speed1).2.domVideos ∧
    ∃ e : VideoCacheEntry,
      getCache ((l.load name1 url speed1).2.load name2 url speed2).2.cache url
        = some (some e) ∧
      e.playbackRate = speed2 ∧ e.textureId = (l.load name1 url speed1).1 := by
  cases h : getCache l.cache url with
  | none => simp [VideoLoader.load, h, getCache_setCache]
  | some oc =>
      cases oc with
      | none => simp [VideoLoader.load, h, getCache_setCache]
      | some e0 => simp [VideoLoader.load, h, getCache_setCache]

/-- C10: calling `unloadTexture` with a name under which no uniform was ever
installed throws a `TypeError` (the source unconditionally dereferences
`this.uniforms[name].value` to dispose it) rather than being a no-op. -/
theorem c10_unload_unknown_throws (v : Veda) (name textureUrl : String)
    (isVid remove : Bool) (h : getU v.uniforms name = none) :
    unloadTexture v name textureUrl isVid remove
      = .error "TypeError: cannot read property of undefined" := by
  simp [unloadTexture, h]

/-- C10 witness: a fresh instance has no uniform named `"video1"`, so
unloading it throws. -/
theorem c10_witness :
    unloadTexture veda0 "video1" "movie.mp4" true false
      = .error "TypeError: cannot read property of undefined" :=
  c10_unload_unknown_throws veda0 "video1" "movie.mp4" true false (by decide)

/-- C9 counterexample: a shader-load request made before `setCanvas` does not
always throw `Call setCanvas() before loading shaders`: the empty pass array
throws nothing at all (`passes.map` never runs the throwing code, so the call
succeeds and resets `FRAMEINDEX`), and a request whose first spec lacks both
sources throws the invalid-argument `TypeError` instead of the canvas
error. -/
theorem c9_counterexample :
    (loadShader veda0 []).1 = .ok () ∧
    (loadShader veda0 [{}]).1 =
      .error "Veda.loadShader: Invalid argument. Shaders must have fs or vs property." ∧
    veda0.canvas = none :=
  ⟨rfl, rfl, rfl⟩

/-- C9 amended: before `setCanvas` every shader-load request with at least one
pass spec throws, and which error is determined by the first spec — the
invalid-argument `TypeError` when it lacks both shader sources (that
validation runs first), the `Call setCanvas() before loading shaders` error
when it carries one — and the installed pass list is left unchanged; only the
empty request succeeds. -/
theorem c9_amended_throws_on_nonempty (v : Veda) (s : PassSpec)
    (rest : List PassSpec) (hc : v.canvas = none) :
    (loadShader v (s :: rest)).1 =
      (if falsyStr s.fs && falsyStr s.vs then
        .error "Veda.loadShader: Invalid argument. Shaders must have fs or vs property."
      else .error "Call setCanvas() before loading shaders") ∧
    (loadShader v (s :: rest)).2.passes = v.passes := by
  obtain ⟨d1, d2, -, -⟩ := disposeList_same v.passes v
  have hc0 : (disposeList v v.passes).canvas = none := by rw [d1, hc]
  by_cases hs : (falsyStr s.fs && falsyStr s.vs) = true
  · rw [if_pos hs]
    simp only [loadShader, buildPasses, hs, if_true]
    exact ⟨trivial, d2⟩
  · rw [if_neg hs]
    have hs2 : (falsyStr s.fs && falsyStr s.vs) = false := by
      revert hs
      cases falsyStr s.fs && falsyStr s.vs <;> simp
    have hcr := createRenderPass_canvasNone (disposeList v v.passes) s hc0
    simp only [loadShader, buildPasses, hs2, Bool.false_eq_true, if_false, hcr]
    exact ⟨trivial, d2⟩

/-- C9 witness: before `setCanvas`, a one-pass fragment-shader request fails
with the canvas error and installs nothing. -/
theorem c9_witness :
    (loadShader veda0 [{ fs := some "fsA" }]).1 =
      .error "Call setCanvas() before loading shaders" ∧
    (loadShader veda0 [{ fs := some "fsA" }]).2.passes = veda0.passes :=
  c9_amended_throws_on_nonempty veda0 { fs := some "fsA" } [] (by decide)

/-- C8: every successful pipeline build (each spec carries a fragment or
vertex source, and a canvas is installed) succeeds and resets the
`FRAMEINDEX` uniform to 0. -/
theorem c8_build_resets_frameindex (v : Veda) (c : Canvas) (specs : List PassSpec)
    (hc : v.canvas = some c) (hall : hasSourceless specs = false)
    (hfi : (getU v.uniforms "FRAMEINDEX").isSome = true) :
    (loadShader v specs).1 = .ok () ∧
    getUVal (loadShader v specs).2.uniforms "FRAMEINDEX" = some (.int 0) := by
  obtain ⟨d1, d2, d3, d4⟩ := disposeList_same v.passes v
  have hc0 : (disposeList v v.passes).canvas = some c := by rw [d1, hc]
  have hok := buildPasses_ok_of_sourced specs c (disposeList v v.passes) hc0 hall
  have hsome : (getU (buildPasses (disposeList v v.passes) specs).2.uniforms
      "FRAMEINDEX").isSome = true := by
    apply buildPasses_isSome
    rw [d4]
    exact hfi
  cases hbp : (buildPasses (disposeList v v.passes) specs).1 with
  | error e => rw [hbp] at hok; simp [Except.isOk, Except.toBool] at hok
  | ok ps =>
      have hpair : buildPasses (disposeList v v.passes) specs
          = (.ok ps, (buildPasses (disposeList v v.passes) specs).2) := by
        rw [← hbp]
      constructor
      · simp only [loadShader]
        rw [hpair]
      · simp only [loadShader]
        rw [hpair]
        show getUVal
          (resetFrameIndex (buildPasses (disposeList v v.passes) specs).2.uniforms)
          "FRAMEINDEX" = some (.int 0)
        obtain ⟨u, hu⟩ := Option.isSome_iff_exists.mp hsome
        unfold resetFrameIndex
        simp [getUVal_setUVal, hu]

/-- C8 witness: building a one-pass fragment pipeline on the demo canvas
resets `FRAMEINDEX`. -/
theorem c8_witness :
    (loadShader vedaC [{ fs := some "fsA" }]).1 = .ok () ∧
    getUVal (loadShader vedaC [{ fs := some "fsA" }]).2.uniforms "FRAMEINDEX"
      = some (.int 0) :=
  c8_build_resets_frameindex vedaC ⟨640, 480⟩ [{ fs := some "fsA" }]
    (by decide) (by decide) (by decide)

/-- C5 counterexample: a pass whose size expressions evaluate to 0 gets its
back buffer resized to 0×0 during the frame — a computed size ≤ 0 is not
clamped to 1 anywhere in the engine. -/
theorem c5_counterexample :
    pass0FrontSize (render (vedaSized (fun _ _ => 0) (fun _ _ => 0)) 16)
      = some (0, 0) := by
  decide

/-- C5 amended: render-target sizes are handed to the framebuffer unclamped —
for every non-positive computed width and height, the per-frame dynamic resize
gives the pass's buffer exactly that non-positive size (never 1). -/
theorem c5_amended_no_clamp (zw zh : Int) (hzw : zw ≤ 0) (hzh : zh ≤ 0) :
    pass0FrontSize (render (vedaSized (fun _ _ => zw) (fun _ _ => zh)) 16)
      = some (zw, zh) ∧ zw < 1 ∧ zh < 1 := by
  refine ⟨rfl, by omega, by omega⟩

/-- C5 witness: computed size −3 produces a −3-sized buffer. -/
theorem c5_witness :
    pass0FrontSize (render (vedaSized (fun _ _ => (-3 : Int)) (fun _ _ => (-3 : Int))) 16)
      = some (-3, -3) ∧ (-3 : Int) < 1 ∧ (-3 : Int) < 1 :=
  c5_amended_no_clamp (-3) (-3) (by norm_num) (by norm_num)

/-- C2 counterexample: in a build whose two passes both declare target `"A"`,
two physically distinct pairs are created (texture ids 3,4 and 5,6) — the
second pass is not bound by reference to the first pass's pair, and the
uniform `"A"` ends on the second pair. -/
theorem c2_counterexample :
    pipelinePairIds vedaAA = [[3, 4], [5, 6]] ∧
    getUVal vedaAA.uniforms "A" = some (.tex 5) := by
  decide

/-- C2 amended: each pass that declares a (truthy) target name creates its own
fresh RenderTargetPair — one physical pair per declaring pass, not one per
distinct name — and the uniform under the shared name is rebound to each new
pair in turn, ending on the most recently created one. -/
theorem c2_amended_fresh_pair_per_pass (v : Veda) (c : Canvas) (s1 s2 : PassSpec)
    (nm : String) (hc : v.canvas = some c)
    (h1 : truthyStr s1.TARGET = some nm) (h2 : truthyStr s2.TARGET = some nm)
    (hf1 : (falsyStr s1.fs && falsyStr s1.vs) = false)
    (hf2 : (falsyStr s2.fs && falsyStr s2.vs) = false)
    (hFI : nm ≠ "FRAMEINDEX") :
    (loadShader v [s1, s2]).1 = .ok () ∧
    pipelinePairIds (loadShader v [s1, s2]).2
      = [[v.nextId, v.nextId + 1], [v.nextId + 2, v.nextId + 3]] ∧
    getUVal (loadShader v [s1, s2]).2.uniforms nm = some (.tex (v.nextId + 2)) := by
  obtain ⟨d1, d2, d3, d4⟩ := disposeList_same v.passes v
  have hc0 : (disposeList v v.passes).canvas = some c := by rw [d1, hc]
  simp only [loadShader, buildPasses, hf1, hf2, Bool.false_eq_true, if_false,
    createRenderPass, hc0, h1, h2, newTarget, Except.map, pipelinePairIds,
    List.map_cons, List.map_nil, resetFrameIndex]
  refine ⟨trivial, ?_, ?_⟩
  · simp [d3]
  · rw [getUVal_setUVal, if_neg (fun he => hFI he.symm)]
    simp [getUVal_setU, d3]

/-- C2 witness: two passes sharing the name `"A"` on the demo canvas get the
pairs (3,4) and (5,6). -/
theorem c2_witness :
    (loadShader vedaC
        [{ TARGET := some "A", fs := some "fsA" },
          { TARGET := some "A", fs := some "fsB" }]).1 = .ok () ∧
    pipelinePairIds (loadShader vedaC
        [{ TARGET := some "A", fs := some "fsA" },
          { TARGET := some "A", fs := some "fsB" }]).2
      = [[vedaC.nextId, vedaC.nextId + 1], [vedaC.nextId + 2, vedaC.nextId + 3]] ∧
    getUVal (loadShader vedaC
        [{ TARGET := some "A", fs := some "fsA" },
          { TARGET := some "A", fs := some "fsB" }]).2.uniforms "A"
      = some (.tex (vedaC.nextId + 2)) :=
  c2_amended_fresh_pair_per_pass vedaC ⟨640, 480⟩
    { TARGET := some "A", fs := some "fsA" } { TARGET := some "A", fs := some "fsB" }
    "A" (by decide) (by decide) (by decide) (by decide) (by decide) (by decide)

/-- C1 counterexample: a failed `loadShader` (sourceless spec) leaves the old
pass list installed but does not leave the previous pipeline intact and live:
the old pass's render-target textures (ids 3 and 4), live before the call,
are disposed by it. -/
theorem c1_counterexample :
    ((loadShader vedaA [{}]).1).isOk = false ∧
    texDisposed vedaA 3 = false ∧ texDisposed vedaA 4 = false ∧
    getUVal vedaA.uniforms "A" = some (.tex 3) ∧
    texDisposed (loadShader vedaA [{}]).2 3 = true ∧
    texDisposed (loadShader vedaA [{}]).2 4 = true := by
  decide

/-- C1 amended: a shader-load request containing a sourceless pass spec fails
with the invalid-argument error and the previously installed pass list remains
installed (no partial pass list is ever assigned), but the previous pipeline
is not left unchanged and live: the old passes' render-target textures have
already been disposed before validation runs. -/
theorem c1_amended_failed_load_disposes_old_textures (v : Veda)
    (specs : List PassSpec) (hbad : hasSourceless specs = true)
    (hbound : passIdsBounded v = true) :
    ((loadShader v specs).1).isOk = false ∧
    (loadShader v specs).2.passes = v.passes ∧
    ∀ p ∈ v.passes, ∀ t, p.target = some t →
      texDisposed (loadShader v specs).2 t.targets.1.texture = true ∧
      texDisposed (loadShader v specs).2 t.targets.2.texture = true := by
  obtain ⟨d1, d2, d3, d4⟩ := disposeList_same v.passes v
  have hbp := buildPasses_isOk_false_of_sourceless specs (disposeList v v.passes) hbad
  cases he : (buildPasses (disposeList v v.passes) specs).1 with
  | ok ps => rw [he] at hbp; simp [Except.isOk, Except.toBool] at hbp
  | error e =>
      have hpair : buildPasses (disposeList v v.passes) specs
          = (.error e, (buildPasses (disposeList v v.passes) specs).2) := by
        rw [← he]
      have hLS : loadShader v specs
          = (.error e, (buildPasses (disposeList v v.passes) specs).2) := by
        simp only [loadShader]
        rw [hpair]
      rw [hLS]
      refine ⟨rfl, ?_, ?_⟩
      · rw [(buildPasses_same specs (disposeList v v.passes)).2.1, d2]
      · intro p hp t ht
        have hb := List.all_eq_true.mp hbound p hp
        rw [ht] at hb
        simp only [Bool.and_eq_true, decide_eq_true_eq] at hb
        obtain ⟨hb1, hb2⟩ := hb
        have hid1 : t.targets.1.texture < (disposeList v v.passes).nextId := by
          rw [d3]; exact hb1
        have hid2 : t.targets.2.texture < (disposeList v v.passes).nextId := by
          rw [d3]; exact hb2
        have g1 := buildPasses_texPreserve specs (disposeList v v.passes)
          t.targets.1.texture hid1
        have g2 := buildPasses_texPreserve specs (disposeList v v.passes)
          t.targets.2.texture hid2
        have hd := disposeList_disposes v.passes v p t hp ht
        constructor
        · show ((getTex (buildPasses (disposeList v v.passes) specs).2.texStore
              t.targets.1.texture).getD ⟨none, false⟩).disposed = true
          rw [g1]
          exact hd.1
        · show ((getTex (buildPasses (disposeList v v.passes) specs).2.texStore
              t.targets.2.texture).getD ⟨none, false⟩).disposed = true
          rw [g2]
          exact hd.2

/-- C1 witness: applying the amended claim to the demo pipeline and a
sourceless request. -/
theorem c1_witness :
    ((loadShader vedaA [{}]).1).isOk = false ∧
    (loadShader vedaA [{}]).2.passes = vedaA.passes ∧
    ∀ p ∈ vedaA.passes, ∀ t, p.target = some t →
      texDisposed (loadShader vedaA [{}]).2 t.targets.1.texture = true ∧
      texDisposed (loadShader vedaA [{}]).2 t.targets.2.texture = true :=
  c1_amended_failed_load_disposes_old_textures vedaA [{}] (by decide) (by decide)

/-- C4 counterexample: the elapsed-time uniform does not advance on every
tick.  A skipped tick (frame-skip stride 2, tick counter reaching 1) advances
the tick counter but leaves the whole state — including the `time` uniform,
still 0 although the wall clock reads 5000 ms past `start = 0` — untouched,
because the source updates `time` only inside `render`. -/
theorem c4_counterexample :
    (ticks (fun _ => 5000) 1 vedaSkip).frame = vedaSkip.frame + 1 ∧
    getUVal (ticks (fun _ => 5000) 1 vedaSkip).uniforms "time" = some (.num 0) ∧
    getUVal vedaSkip.uniforms "time" = some (.num 0) ∧
    vedaSkip.start = 0 := by
  refine ⟨rfl, by decide, by decide, rfl⟩

/-- C4 amended: with frame-skip stride S, over T animation ticks from a reset
tick counter exactly ⌊T/S⌋ executions of the render step set occur (counted by
its unconditional `FRAMEINDEX` increment), while a skipped tick advances only
the tick counter: the elapsed-time uniform is rewritten from the wall clock
only on executed ticks, and is left unchanged on skipped ones. -/
theorem c4_amended_frameskip_counts (clock : Nat → Int) (c : Canvas) (S : Nat)
    (ty : String) (n : Int) (v : Veda) (T : Nat) (now0 : Int)
    (hp : v.isPlaying = true) (hc : v.canvas = some c) (hs : v.frameskip = S)
    (hf : v.frame = 0) (hne : v.passes ≠ [])
    (hn : noTargetNamed v.passes "FRAMEINDEX" = true)
    (hFI : getU v.uniforms "FRAMEINDEX" = some ⟨ty, .int n⟩) :
    getU (ticks clock T v).uniforms "FRAMEINDEX"
      = some ⟨ty, .int (n + (T / S : Nat))⟩ ∧
    ((v.frame + 1) % v.frameskip ≠ 0 →
      animate v now0 = { v with frame := v.frame + 1 }) := by
  refine ⟨(ticks_invariant clock c S ty n v hp hc hs hf hne hn hFI T).2.2.2.2.2.2, ?_⟩
  intro hmod
  exact animate_skip v now0 hp hmod

/-- C4 witness: over 5 ticks at stride 2 from the scenario state, exactly
⌊5/2⌋ = 2 renders happen, and the first tick is a no-render tick. -/
theorem c4_witness :
    getU (ticks (fun t => 16 * ((t : Int) + 1)) 5 vedaSkip).uniforms "FRAMEINDEX"
      = some ⟨"i", .int (0 + ((5 / 2 : Nat) : Int))⟩ ∧
    ((vedaSkip.frame + 1) % vedaSkip.frameskip ≠ 0 →
      animate vedaSkip 999 = { vedaSkip with frame := vedaSkip.frame + 1 }) :=
  c4_amended_frameskip_counts (fun t => 16 * ((t : Int) + 1)) ⟨640, 480⟩ 2 "i" 0
    vedaSkip 5 999 (by decide) (by decide) (by decide) (by decide)
    (by
      intro h
      have h2 : vedaSkip.passes.length = 2 := rfl
      rw [h] at h2
      exact absurd h2 (by decide))
    (by decide) (by decide)

/-- C3: for every frame and every pass bound to a named target pair, the
driver resolves the pair's dynamic size, resizes and renders into the pair's
back buffer, swaps the pair, and rebinds the uniform under the target name to
the newly rendered texture: after the frame the uniform holds exactly this
pass's output of this frame — tagged with the pass's pipeline index and the
current frame index — never a stale or default texture.  The hypotheses say
the pass at index `pre.length` owns target `t` named `nm`, that no later pass
writes the same name or aliases the same back texture, that the reserved
uniform names are not shadowed, and that the backbuffer does not alias the
pass's back texture — all true in every pipeline `loadShader` builds. -/
theorem c3_bound_pass_uniform_fresh (v : Veda) (c : Canvas) (now : Int)
    (pre post : List RenderPass) (p : RenderPass) (t : RenderPassTarget)
    (nm : String) (hc : v.canvas = some c)
    (hps : v.passes = pre ++ p :: post)
    (ht : p.target = some t) (hnm : t.name = nm)
    (hFI : nm ≠ "FRAMEINDEX") (hPI : nm ≠ "PASSINDEX")
    (hpres : (getU v.uniforms nm).isSome = true)
    (hpreN : noTargetNamed pre "FRAMEINDEX" = true)
    (hpostN : noTargetNamed post nm = true)
    (hpostT : noBackTex post t.targets.2.texture = true)
    (hbb : v.targets.1.texture ≠ t.targets.2.texture) :
    getUVal (render v now).uniforms nm = some (.tex t.targets.2.texture) ∧
    texContent (render v now) t.targets.2.texture
      = some (pre.length, frameIndexVal v) := by
  rw [render_eq v now c hc]
  rw [show (renderPre v now).passes = pre ++ p :: post from hps]
  rw [runPasses_append c pre (p :: post) (renderPre v now) 0]
  simp only [runPasses, Nat.zero_add]
  generalize hA : runPasses c (renderPre v now) pre 0 = A
  generalize hrp : runPass A.1 c p pre.length = rp
  generalize hB : runPasses c rp.1 post (pre.length + 1) = B
  have hpresA : (getU A.1.uniforms nm).isSome = true := by
    rw [← hA, runPasses_isSome c pre nm (renderPre v now) 0, renderPre_isSome]
    exact hpres
  have hfiA : frameIndexVal A.1 = frameIndexVal v := by
    rw [← hA, runPasses_frameIndexVal c pre (renderPre v now) 0 hpreN,
      renderPre_frameIndexVal]
  have hF1 := runPass_bound A.1 c p pre.length t ht (by rw [hnm]; exact hpresA)
  rw [hrp] at hF1
  have hF2u : getU B.1.uniforms nm = getU rp.1.uniforms nm := by
    rw [← hB]
    exact runPasses_getU c post nm hPI rp.1 (pre.length + 1) hpostN
  have hF2t : getTex B.1.texStore t.targets.2.texture
      = getTex rp.1.texStore t.targets.2.texture := by
    rw [← hB]
    exact runPasses_getTex c post t.targets.2.texture rp.1 (pre.length + 1) hpostT
  have htg : B.1.targets = swapPair v.targets := by
    rw [← hB, (runPasses_same c post rp.1 (pre.length + 1)).2.2.1, ← hrp,
      (runPass_same A.1 c p pre.length).2.2.1, ← hA,
      (runPasses_same c pre (renderPre v now) 0).2.2.1]
    rfl
  constructor
  · unfold getUVal
    rw [renderPost_getU_ne _ nm hFI]
    show (getU B.1.uniforms nm).map (·.value) = some (.tex t.targets.2.texture)
    rw [hF2u]
    have h1 := hF1.1
    rw [hnm] at h1
    exact h1
  · have hid : ({ B.1 with passes := A.2 ++ rp.2 :: B.2 } : Veda).targets.2.texture
        ≠ t.targets.2.texture := by
      show B.1.targets.2.texture ≠ t.targets.2.texture
      rw [htg]
      exact hbb
    unfold texContent
    rw [renderPost_getTex _ _ hid]
    show ((getTex B.1.texStore t.targets.2.texture).getD ⟨none, false⟩).content
      = some (pre.length, frameIndexVal v)
    rw [hF2t]
    have h2 := hF1.2
    rw [hfiA] at h2
    exact h2

/-- C3 witness: in the scenario pipeline (pass 0 writes `"A"`, pass 1 renders
to the display), after one frame the uniform `"A"` holds pass 0's output of
this very frame. -/
theorem c3_witness :
    getUVal (render vedaA 1000).uniforms "A"
      = some (.tex vedaA.passes.headI.target.iget.targets.2.texture) ∧
    texContent (render vedaA 1000) vedaA.passes.headI.target.iget.targets.2.texture
      = some (0, frameIndexVal vedaA) :=
  c3_bound_pass_uniform_fresh vedaA ⟨640, 480⟩ 1000 [] vedaA.passes.tail
    vedaA.passes.headI vedaA.passes.headI.target.iget "A"
    (by decide) (by rfl) (by rfl) (by rfl) (by decide) (by decide)
    (by decide) (by rfl) (by decide) (by decide) (by decide)

end Vedajs
